import Mathlib

/-!
Shallow embedding of the seq2seq model core in onmt/Models.py.

Tensors are embedded as nested lists of rationals in the layouts the code
uses: a 3-D tensor (time or layers, batch, features) is a list of matrices,
a matrix is a list of rows.  External collaborators (embeddings, the
attention module, context gates, dropout, the recurrent cells) are passed
in as function parameters, mirroring their black-box contracts in the
source.  The exponential inside F.softmax is abstracted as an arbitrary
strictly positive weight function, which is the only property of exp the
claims about softmax rely on.
-/

abbrev Vec := List ℚ
abbrev Mat := List Vec
abbrev Tensor3 := List Mat

/-- Size of axis 1 (the batch axis) of a 3-D tensor, `t.size(1)` in torch. -/
def tsize1 (t : Tensor3) : ℕ := (t.headD []).length

/-- Size of axis 2 of a 3-D tensor, `t.size(2)` in torch. -/
def tsize2 (t : Tensor3) : ℕ := ((t.headD []).headD []).length

/-- Elementwise matrix addition, `a + b` on two torch matrices. -/
def matAdd (a b : Mat) : Mat := List.zipWith (fun r s => List.zipWith (· + ·) r s) a b

/-- Concatenation along axis 1 of two batch-major matrices, `torch.cat([a, b], 1)`. -/
def matHCat (a b : Mat) : Mat := List.zipWith (fun r s => r ++ s) a b

/-- Dot product of two vectors. -/
def dotProd (a b : Vec) : ℚ := (List.zipWith (· * ·) a b).sum

/-- Number of columns of a matrix (length of its first row). -/
def ncols (m : Mat) : ℕ := (m.headD []).length

/-- Matrix product `torch.matmul(a, b)`: entry (i, j) is the dot product of
row i of `a` with column j of `b`. -/
def matMul (a b : Mat) : Mat :=
  a.map (fun row => (List.range (ncols b)).map
    (fun j => (List.zipWith (fun x brow => x * brow.getD j 0) row b).sum))

/-- Matrix transpose, `m.permute(1, 0)`. -/
def matTranspose (m : Mat) : Mat :=
  (List.range (ncols m)).map (fun j => m.map (fun row => row.getD j 0))

/-- Scale every entry of a matrix. -/
def matScale (c : ℚ) (m : Mat) : Mat := m.map (fun r => r.map (fun x => c * x))

/-- Mean over axis 0 of a stack of matrices, `torch.mean(x, 0)` on a
(time, batch, features) tensor. -/
def matMean : List Mat → Mat
  | [] => []
  | m :: rest => matScale (1 / ((m :: rest).length : ℚ)) (rest.foldl matAdd m)

/-- Rectified linear unit, `F.relu` on one scalar. -/
def relu (x : ℚ) : ℚ := max x 0

/-- `F.softmax(m, dim=1)`: each row is weighted by `e` (the abstracted
exponential, strictly positive) and normalized by the row total. -/
def softmaxRows (e : ℚ → ℚ) (m : Mat) : Mat :=
  m.map (fun row =>
    let w := row.map e
    w.map (fun x => x / w.sum))

/-- Modelled from the spec: the `aeq` helper imported from onmt/Utils.py is
not under src/; the spec describes it as a fatal equality assertion on the
compared sizes, never silently coerced. -/
def aeq (a b : ℕ) : Except String Unit :=
  if a = b then Except.ok () else Except.error "aeq assertion failed"

/-- EncoderBase._check_args: unpack (s_len, n_batch, n_feats) from the input
and assert that the lengths vector (when given) has exactly n_batch entries. -/
def check_args (input : Tensor3) (lengths : Option (List ℤ)) : Except String Unit :=
  match lengths with
  | none => Except.ok ()
  | some ls => aeq (tsize1 input) ls.length

/-- The batch-size check at the top of RNNDecoderBase.forward:
aeq(tgt_batch, memory_batch). -/
def decoder_forward_check (tgt memory_bank : Tensor3) : Except String Unit :=
  aeq (tsize1 tgt) (tsize1 memory_bank)

/-- An encoder forward call: _check_args runs first and any later work
(abstracted as `rest`) only happens when the check passes. -/
def encoder_forward_checked {A : Type} (src : Tensor3) (lengths : Option (List ℤ))
    (rest : Unit → A) : Except String A := do
  let _ ← check_args src lengths
  Except.ok (rest ())

/-- A decoder forward call: the tgt/memory batch equality assertion runs
first and any later work (abstracted as `rest`) only happens when it passes. -/
def decoder_forward_checked {A : Type} (tgt memory_bank : Tensor3)
    (rest : Unit → A) : Except String A := do
  let _ ← decoder_forward_check tgt memory_bank
  Except.ok (rest ())

/-- Python strided slice `h[start : len(h) : 2]` on the layer axis of a
3-D tensor: entries start, start+2, start+4, ... -/
def slice_step2 (h : Tensor3) (start : ℕ) : Tensor3 :=
  (List.range ((h.length - start + 1) / 2)).map (fun i => h.getD (start + 2 * i) [])

/-- RNNDecoderBase.init_decoder_state._fix_enc_hidden: when the encoder is
bidirectional, `torch.cat([h[0::2], h[1::2]], 2)` concatenates the
forward/backward layer slices pairwise along the hidden axis; otherwise the
state is returned unchanged. -/
def fix_enc_hidden (bidirectional_encoder : Bool) (h : Tensor3) : Tensor3 :=
  if bidirectional_encoder then
    List.zipWith (fun a b => List.zipWith (fun r s => r ++ s) a b)
      (slice_step2 h 0) (slice_step2 h 1)
  else h

/-- The rnn-state argument passed around decoder state construction: a bare
tensor (GRU-style) or a tuple of tensors (LSTM-style hidden+cell). -/
inductive RnnStateArg where
  | single : Tensor3 → RnnStateArg
  | tuple : List Tensor3 → RnnStateArg
deriving DecidableEq

/-- RNNDecoderState: hidden tensors (the tuple the recurrent cell carries),
the input-feed tensor and the optional coverage accumulator. -/
structure RNNDecoderState where
  hidden : List Tensor3
  input_feed : Tensor3
  coverage : Option Tensor3
deriving DecidableEq

/-- RNNDecoderState.__init__: a non-tuple rnnstate is wrapped into a
1-tuple; coverage starts as None; the input feed is a zero tensor of shape
(1, batch_size, hidden_size) where batch_size = hidden[0].size(1). -/
def mkRNNDecoderState (hidden_size : ℕ) (rnnstate : RnnStateArg) : RNNDecoderState :=
  let hidden := match rnnstate with
    | .single t => [t]
    | .tuple ts => ts
  let batch_size := tsize1 (hidden.headD [])
  { hidden := hidden
    input_feed := [List.replicate batch_size (List.replicate hidden_size 0)]
    coverage := none }

/-- RNNDecoderBase.init_decoder_state: apply _fix_enc_hidden to every
channel of a tuple-shaped (LSTM) final state, or to the single tensor
otherwise, then build the RNNDecoderState. -/
def init_decoder_state (bidirectional_encoder : Bool) (hidden_size : ℕ)
    (encoder_final : RnnStateArg) : RNNDecoderState :=
  match encoder_final with
  | .tuple ts => mkRNNDecoderState hidden_size
      (.tuple (ts.map (fix_enc_hidden bidirectional_encoder)))
  | .single t => mkRNNDecoderState hidden_size
      (.single (fix_enc_hidden bidirectional_encoder t))

/-- The body of DecoderState.beam_update for one 3-D state tensor `e`:
sizes = e.size(); br = sizes[1]; the tensor is viewed as
(sizes[0], beam_size, br // beam_size, sizes[2]), the slice [:, :, idx] is
selected and overwritten with its own index_select(1, positions).  On the
flat layout this replaces row b of every axis-0 slice, whenever
b % (br // beam_size) = idx, by row positions[b / nb] * nb + idx, and
leaves every other row unchanged. -/
def beam_update_tensor (beam_size idx : ℕ) (positions : List ℕ) (e : Tensor3) : Tensor3 :=
  let br := tsize1 e
  let nb := br / beam_size
  e.map (fun slice =>
    (List.range br).map (fun b =>
      if b % nb = idx then slice.getD (positions.getD (b / nb) 0 * nb + idx) []
      else slice.getD b []))

namespace RNNDecoderState

/-- RNNDecoderState._all: the shared iteration over all state tensors,
`self.hidden + (self.input_feed,)`. -/
def all (s : RNNDecoderState) : List Tensor3 := s.hidden ++ [s.input_feed]

/-- RNNDecoderState.update_state: replace hidden (re-wrapping a non-tuple),
input feed and coverage. -/
def update_state (s : RNNDecoderState) (rnnstate : RnnStateArg)
    (input_feed : Tensor3) (coverage : Option Tensor3) : RNNDecoderState :=
  let _ := s
  { hidden := match rnnstate with
      | .single t => [t]
      | .tuple ts => ts
    input_feed := input_feed
    coverage := coverage }

/-- DecoderState.beam_update on an RNNDecoderState: the in-place overwrite
is applied to each tensor yielded by `_all`, i.e. to every hidden tensor
and to the input feed; nothing else in the state is touched. -/
def beam_update (s : RNNDecoderState) (idx : ℕ) (positions : List ℕ)
    (beam_size : ℕ) : RNNDecoderState :=
  { s with
    hidden := s.hidden.map (beam_update_tensor beam_size idx positions)
    input_feed := beam_update_tensor beam_size idx positions s.input_feed }

end RNNDecoderState

/-- One application of an nn.Linear layer with weight rows `W` and bias. -/
def vecLinear (W : Mat) (bias : Vec) (v : Vec) : Vec :=
  List.zipWith (fun wrow bj => dotProd wrow v + bj) W bias

/-- Row-major flattening of a 3-D tensor. -/
def flatten3 (t : Tensor3) : Vec := t.flatten.flatten

/-- Fuel-driven chunking helper for `view`: groups a flat list into
consecutive chunks of length k. -/
def chunkAux {α : Type} : ℕ → ℕ → List α → List (List α)
  | 0, _, _ => []
  | _ + 1, _, [] => []
  | fuel + 1, k, a :: l => (a :: l).take k :: chunkAux fuel k ((a :: l).drop k)

/-- `x.view(-1, k)` on a flat element list: consecutive chunks of length k. -/
def chunkList {α : Type} (k : ℕ) (l : List α) : List (List α) :=
  if k = 0 then [] else chunkAux l.length k l

/-- A Python number as it appears in a size list handed to Tensor.view: the
module-wide future import of true division makes `/` on two ints produce a
float, so size arithmetic can carry either an int or a float. -/
inductive PyNum where
  | int : ℤ → PyNum
  | float : ℚ → PyNum
deriving DecidableEq

/-- torch Tensor.view on an explicit 3-entry size list built by Python
arithmetic: view requires every size entry to be an integer and raises a
TypeError when handed a float entry, whatever its value; on an all-int size
list it reshapes the flat element list by chunking the last axis and then
the middle axis. -/
def tensor_view3 (sizes : List PyNum) (flat : Vec) : Except String Tensor3 :=
  match sizes with
  | [PyNum.int _, PyNum.int d1, PyNum.int d2] =>
      Except.ok (chunkList d1.toNat (chunkList d2.toNat flat))
  | _ => Except.error "TypeError: view size must be int, got float"

/-- RNNEncoder._bridge.bottle_hidden: record (size0, size1, size2) of the
incoming state, view it as (-1, total_hidden_dim) (an all-int size, so this
reshape succeeds), apply the linear layer and F.relu, and then call
result.view([size[0] / self.num_layers, size[1], size[2]]).  Under the
module-wide `from __future__ import division` import (Models.py:1),
size[0] / self.num_layers is a Python float, so this final view raises a
TypeError on every call, whatever the shapes. -/
def bottle_hidden (num_layers total_hidden_dim : ℕ) (W : Mat) (bias : Vec)
    (states : Tensor3) : Except String Tensor3 :=
  let size0 := states.length
  let size1 := tsize1 states
  let size2 := tsize2 states
  let rows := chunkList total_hidden_dim (flatten3 states)
  let result := rows.map (fun r => vecLinear W bias r)
  let relud := result.map (fun r => r.map relu)
  tensor_view3 [PyNum.float ((size0 : ℚ) / (num_layers : ℚ)),
    PyNum.int (size1 : ℤ), PyNum.int (size2 : ℤ)] relud.flatten

/-- The per-channel loop of RNNEncoder._bridge on a tuple state: the Python
comprehension evaluates bottle_hidden(bridge[ix], hidden[ix]) left to right
and aborts on the first raise. -/
def bridge_channels (num_layers total_hidden_dim : ℕ) :
    List ((Mat × Vec) × Tensor3) → Except String (List Tensor3)
  | [] => Except.ok []
  | (br, t) :: rest => do
    let h ← bottle_hidden num_layers total_hidden_dim br.1 br.2 t
    let hs ← bridge_channels num_layers total_hidden_dim rest
    Except.ok (h :: hs)

/-- RNNEncoder._bridge: for a tuple-shaped (LSTM) state apply the
per-channel bridge layers pairwise (bridge[ix] to hidden[ix]); otherwise
apply the single bridge layer bridge[0].  Any raise inside a channel
projection propagates out of _bridge. -/
def bridge_forward (num_layers total_hidden_dim : ℕ) (bridges : List (Mat × Vec)) :
    RnnStateArg → Except String RnnStateArg
  | .tuple ts => (bridge_channels num_layers total_hidden_dim (bridges.zip ts)).map
      RnnStateArg.tuple
  | .single t => (bottle_hidden num_layers total_hidden_dim
      (bridges.headD ([], [])).1 (bridges.headD ([], [])).2 t).map RnnStateArg.single

/-- The tail of RNNEncoder.forward: when use_bridge is set the final state
is passed through _bridge (whose raise, if any, propagates), otherwise it
is returned as produced by the rnn. -/
def rnn_encoder_apply_bridge (use_bridge : Bool) (num_layers total_hidden_dim : ℕ)
    (bridges : List (Mat × Vec)) (encoder_final : RnnStateArg) :
    Except String RnnStateArg :=
  if use_bridge then bridge_forward num_layers total_hidden_dim bridges encoder_final
  else Except.ok encoder_final

/-- The attention dictionary built by StdRNNDecoder._run_forward_pass: only
the "std" key is ever written; copy and coverage entries are modelled as
Options that stay `none`. -/
structure StdAttns where
  std : Tensor3
  copy : Option Tensor3
  coverage : Option Tensor3
deriving DecidableEq

/-- StdRNNDecoder._run_forward_pass: the two capability assertions
(`assert not self._copy`, `assert not self._coverage`) run before anything
else; then the target is embedded, the whole-sequence rnn is run (a GRU
receives state.hidden[0], other cells the full hidden tuple), the
tgt/output length and batch equality assertions run, one batched attention
pass produces the outputs and the "std" distributions, the optional context
gate and dropout are applied. -/
def std_run_forward_pass
    (cfg_copy cfg_coverage is_gru : Bool)
    (embF : Tensor3 → Tensor3)
    (rnnF : Tensor3 → List Tensor3 → Tensor3 × List Tensor3)
    (attnF : Tensor3 → Tensor3 → Tensor3 × Tensor3)
    (context_gate : Option (Tensor3 → Tensor3 → Tensor3 → Tensor3))
    (dropoutF : Tensor3 → Tensor3)
    (tgt memory_bank : Tensor3) (state : RNNDecoderState) :
    Except String (List Tensor3 × Tensor3 × StdAttns) :=
  if cfg_copy then Except.error "assert not copy failed: no support yet"
  else if cfg_coverage then Except.error "assert not coverage failed: no support yet"
  else
    let emb := embF tgt
    let ro := rnnF emb (if is_gru then [state.hidden.headD []] else state.hidden)
    do
    let _ ← aeq tgt.length ro.1.length
    let _ ← aeq (tsize1 tgt) (tsize1 ro.1)
    let ao := attnF ro.1 memory_bank
    let attns : StdAttns := { std := ao.2, copy := none, coverage := none }
    let decoder_outputs1 := match context_gate with
      | some g => g emb ro.1 ao.1
      | none => ao.1
    let decoder_outputs := dropoutF decoder_outputs1
    Except.ok (ro.2, decoder_outputs, attns)

/-- Result of the input-feeding decoder loop: final hidden state, the
per-step decoder outputs, and the per-step "std", "copy" and "coverage"
attention lists. -/
structure IFOut (H : Type) where
  hidden : H
  outputs : List Mat
  std : List Mat
  copy : List Mat
  covlist : List Mat
deriving DecidableEq

/-- The per-step loop of InputFeedRNNDecoder._run_forward_pass, recursing
over emb.split(1).  Each step concatenates the embedded token with the
input feed, runs one recurrent-cell step, runs attention (the memory bank
and lengths are closed over inside attnF), optionally applies the context
gate, applies dropout and feeds the result forward.  With coverage enabled
the new coverage is the previous coverage plus the new distribution (or the
distribution itself when there is no previous coverage) and is appended to
the coverage list.  With copy enabled and reuse disabled a second
attention pass is run; with reuse enabled the copy list is the std list. -/
def run_forward_steps {H : Type}
    (rnnF : Mat → H → Mat × H)
    (attnF : Mat → Mat × Mat)
    (context_gate : Option (Mat → Mat → Mat → Mat))
    (dropoutF : Mat → Mat)
    (copyAttnF : Mat → Mat × Mat)
    (coverage_flag copy_flag reuse_flag : Bool)
    (embs : List Mat) (hidden : H) (input_feed : Mat) (coverage : Option Mat) :
    IFOut H :=
  match embs with
  | [] => ⟨hidden, [], [], [], []⟩
  | emb_t :: rest =>
    let decoder_input := matHCat emb_t input_feed
    let ro := rnnF decoder_input hidden
    let ao := attnF ro.1
    let decoder_output1 := match context_gate with
      | some g => g decoder_input ro.1 ao.1
      | none => ao.1
    let decoder_output := dropoutF decoder_output1
    let newcov := match coverage with
      | some c => matAdd c ao.2
      | none => ao.2
    let coverage2 := if coverage_flag then some newcov else coverage
    let restOut := run_forward_steps rnnF attnF context_gate dropoutF copyAttnF
      coverage_flag copy_flag reuse_flag rest ro.2 decoder_output coverage2
    { hidden := restOut.hidden
      outputs := decoder_output :: restOut.outputs
      std := ao.2 :: restOut.std
      copy :=
        if copy_flag && !reuse_flag then (copyAttnF decoder_output).2 :: restOut.copy
        else if copy_flag then ao.2 :: restOut.copy
        else restOut.copy
      covlist := if coverage_flag then newcov :: restOut.covlist else restOut.covlist }

/-- InputFeedRNNDecoder._run_forward_pass: squeeze the stored input feed,
assert its batch size against the target batch size, embed the target,
squeeze the stored coverage and run the step loop over the time slices. -/
def input_feed_run_forward_pass
    (rnnF : Mat → List Tensor3 → Mat × List Tensor3)
    (attnF : Mat → Mat × Mat)
    (context_gate : Option (Mat → Mat → Mat → Mat))
    (dropoutF : Mat → Mat)
    (copyAttnF : Mat → Mat × Mat)
    (coverage_flag copy_flag reuse_flag : Bool)
    (embF : Tensor3 → Tensor3)
    (tgt : Tensor3) (state : RNNDecoderState) :
    Except String (IFOut (List Tensor3)) :=
  let input_feed := state.input_feed.headD []
  do
  let _ ← aeq (tsize1 tgt) input_feed.length
  let emb := embF tgt
  let coverage := state.coverage.map (fun c => c.headD [])
  Except.ok (run_forward_steps rnnF attnF context_gate dropoutF copyAttnF
    coverage_flag copy_flag reuse_flag emb state.hidden input_feed coverage)

/-- Specification helper: running elementwise sums of a list of attention
distributions, starting from an optional carried accumulator.  Entry 0 with
no carry is the first distribution itself, and every later entry is the
previous entry plus the new distribution. -/
def runningSums : List Mat → Option Mat → List Mat
  | [], _ => []
  | a :: rest, acc =>
    let s := match acc with
      | some c => matAdd c a
      | none => a
    s :: runningSums rest (some s)

/-- word_memory: word_embedding_a is all_docs.permute(1, 0) and
word_embedding_c is all_docs itself (the two learned projections). -/
structure WordMemory where
  word_embedding_a : Mat
  word_embedding_c : Mat

/-- word_memory.__init__ from the pre-encoded document matrix. -/
def mkWordMemory (all_docs : Mat) : WordMemory :=
  ⟨matTranspose all_docs, all_docs⟩

/-- word_memory.forward with usetopk = False (the hardcoded default; the
topk branch references undefined locals and is dead code): u is the mean
over time of the embedded query sequence, p = softmax(u @ A, dim=1), and
the result is p @ C.  `e` abstracts the exponential inside softmax and
`emb_seq` is the output of the external word_embedding_b collaborator. -/
def WordMemory.forward (wm : WordMemory) (e : ℚ → ℚ) (emb_seq : List Mat) : Mat :=
  let u := matMean emb_seq
  let p := softmaxRows e (matMul u wm.word_embedding_a)
  matMul p wm.word_embedding_c

/-- NMTModel.forward: drop the last target step, encode, initialize the
decoder state from the encoder final state, decode (from the supplied
decoder state when given), and return (outputs, attns, dec_state) — with
both attns and dec_state nulled when multigpu is set. -/
def nmt_forward {Src TgtT L EF MB Out Attns DS : Type}
    (encoder : Src → L → EF × MB)
    (initState : Src → MB → EF → DS)
    (decoder : List TgtT → MB → DS → L → Out × DS × Attns)
    (multigpu : Bool)
    (src : Src) (tgt : List TgtT) (lengths : L) (dec_state : Option DS) :
    Out × Option Attns × Option DS :=
  let tgt2 := tgt.dropLast
  let enc := encoder src lengths
  let enc_state := initState src enc.2 enc.1
  let d := decoder tgt2 enc.2
    (match dec_state with
     | none => enc_state
     | some s => s) lengths
  if multigpu then (d.1, none, none) else (d.1, some d.2.2, some d.2.1)

/-- TwoEncoderModel.forward: drop the last target step, concatenate the two
input streams along time and add their length vectors, encode the
concatenation, optionally add the word-memory read (broadcast over time) to
the memory bank, initialize the decoder state, decode, and null attns and
dec_state when multigpu is set. -/
def two_encoder_forward {EF DS Out Attns : Type}
    (encoder : Tensor3 → List ℤ → EF × Tensor3)
    (initState : Tensor3 → Tensor3 → EF → DS)
    (decoder : Tensor3 → Tensor3 → DS → List ℤ → Out × DS × Attns)
    (embB : Tensor3 → List Mat)
    (e : ℚ → ℚ)
    (all_docs : Option Mat)
    (multigpu : Bool)
    (src conversation tgt : Tensor3)
    (lengths : List ℤ × List ℤ)
    (dec_state : Option DS) :
    Out × Option Attns × Option DS :=
  let tgt2 := tgt.dropLast
  let concat := src ++ conversation
  let concat_lengths := List.zipWith (· + ·) lengths.1 lengths.2
  let enc := encoder concat concat_lengths
  let memory_bank := match all_docs with
    | some docs => enc.2.map (fun slice => matAdd slice ((mkWordMemory docs).forward e (embB src)))
    | none => enc.2
  let enc_state := initState concat memory_bank enc.1
  let d := decoder tgt2 memory_bank
    (match dec_state with
     | none => enc_state
     | some s => s) concat_lengths
  if multigpu then (d.1, none, none) else (d.1, some d.2.2, some d.2.1)

/-! ### Helper lemmas -/

theorem getD_map_range {α : Type} (f : ℕ → α) {n i : ℕ} (d : α) (h : i < n) :
    ((List.range n).map f).getD i d = f i := by
  have hl : i < ((List.range n).map f).length := by simpa using h
  rw [List.getD_eq_getElem _ _ hl]
  simp

theorem range_map_getD {α : Type} (l : List α) (d : α) :
    (List.range l.length).map (fun i => l.getD i d) = l := by
  apply List.ext_getElem
  · simp
  · intro i h1 h2
    simp only [List.getElem_map, List.getElem_range]
    exact List.getD_eq_getElem _ _ h2

theorem zipWith_getD {α β γ : Type} (f : α → β → γ) (as : List α) (bs : List β)
    (i : ℕ) (da : α) (db : β) (dc : γ) (ha : i < as.length) (hb : i < bs.length) :
    (List.zipWith f as bs).getD i dc = f (as.getD i da) (bs.getD i db) := by
  have hz : i < (List.zipWith f as bs).length := by
    rw [List.length_zipWith]; omega
  rw [List.getD_eq_getElem _ _ hz, List.getD_eq_getElem _ _ ha,
    List.getD_eq_getElem _ _ hb, List.getElem_zipWith]

theorem slice_step2_length (h : Tensor3) (s : ℕ) :
    (slice_step2 h s).length = (h.length - s + 1) / 2 := by
  simp [slice_step2]

theorem slice_step2_getD (h : Tensor3) {s i : ℕ} (hi : i < (h.length - s + 1) / 2) :
    (slice_step2 h s).getD i [] = h.getD (s + 2 * i) [] :=
  getD_map_range _ _ hi

/-! ### C1: bidirectional final-state reconciliation -/

/-- C1: for an encoder final state with 2*L layer-slices ordered
forward/backward/forward/backward/..., the reconciliation applied by
init_decoder_state when bidirectional_encoder is set produces exactly L
layers, slice i is the hidden-axis concatenation of original slices 2i and
2i+1 (so its rows are twice as wide), and on a tuple-shaped (LSTM) final
state the same transformation is applied independently to each channel. -/
theorem bidir_final_state_reconciliation
    (h : Tensor3) (L B d : ℕ)
    (hlen : h.length = 2 * L)
    (hrect : ∀ slice ∈ h, slice.length = B ∧ ∀ row ∈ slice, row.length = d) :
    (fix_enc_hidden true h).length = L
    ∧ (∀ i, i < L → ∀ b, b < B →
        ((fix_enc_hidden true h).getD i []).getD b []
          = (h.getD (2 * i) []).getD b [] ++ (h.getD (2 * i + 1) []).getD b []
        ∧ (((fix_enc_hidden true h).getD i []).getD b []).length = 2 * d)
    ∧ (∀ hs ts, (init_decoder_state true hs (RnnStateArg.tuple ts)).hidden
          = ts.map (fix_enc_hidden true)) := by
  have hlen0 : (slice_step2 h 0).length = L := by
    rw [slice_step2_length, hlen]; omega
  have hlen1 : (slice_step2 h 1).length = L := by
    rw [slice_step2_length, hlen]; omega
  have hfix : fix_enc_hidden true h
      = List.zipWith (fun a b => List.zipWith (fun r s => r ++ s) a b)
          (slice_step2 h 0) (slice_step2 h 1) := by
    simp [fix_enc_hidden]
  refine ⟨?_, ?_, ?_⟩
  · rw [hfix, List.length_zipWith, hlen0, hlen1]; omega
  · intro i hi b hb
    have hi0 : i < (slice_step2 h 0).length := by omega
    have hi1 : i < (slice_step2 h 1).length := by omega
    have hsl : (fix_enc_hidden true h).getD i []
        = List.zipWith (fun r s => r ++ s)
            ((slice_step2 h 0).getD i []) ((slice_step2 h 1).getD i []) := by
      rw [hfix]
      exact zipWith_getD _ _ _ _ [] [] [] hi0 hi1
    have hs0 : (slice_step2 h 0).getD i [] = h.getD (2 * i) [] := by
      have := slice_step2_getD h (s := 0) (i := i) (by rw [hlen]; omega)
      simpa using this
    have hs1 : (slice_step2 h 1).getD i [] = h.getD (2 * i + 1) [] := by
      have := slice_step2_getD h (s := 1) (i := i) (by rw [hlen]; omega)
      have harith : 1 + 2 * i = 2 * i + 1 := by omega
      rw [harith] at this
      exact this
    have hm0 : 2 * i < h.length := by omega
    have hm1 : 2 * i + 1 < h.length := by omega
    have hmem0 : h.getD (2 * i) [] ∈ h := by
      rw [List.getD_eq_getElem _ _ hm0]; exact List.getElem_mem hm0
    have hmem1 : h.getD (2 * i + 1) [] ∈ h := by
      rw [List.getD_eq_getElem _ _ hm1]; exact List.getElem_mem hm1
    have hB0 : (h.getD (2 * i) []).length = B := (hrect _ hmem0).1
    have hB1 : (h.getD (2 * i + 1) []).length = B := (hrect _ hmem1).1
    have hbb0 : b < (h.getD (2 * i) []).length := by omega
    have hbb1 : b < (h.getD (2 * i + 1) []).length := by omega
    have hrow : ((fix_enc_hidden true h).getD i []).getD b []
        = (h.getD (2 * i) []).getD b [] ++ (h.getD (2 * i + 1) []).getD b [] := by
      rw [hsl, hs0, hs1]
      exact zipWith_getD _ _ _ _ [] [] [] hbb0 hbb1
    refine ⟨hrow, ?_⟩
    have hrm0 : (h.getD (2 * i) []).getD b [] ∈ h.getD (2 * i) [] := by
      rw [List.getD_eq_getElem _ _ hbb0]; exact List.getElem_mem hbb0
    have hrm1 : (h.getD (2 * i + 1) []).getD b [] ∈ h.getD (2 * i + 1) [] := by
      rw [List.getD_eq_getElem _ _ hbb1]; exact List.getElem_mem hbb1
    have hd0 : ((h.getD (2 * i) []).getD b []).length = d :=
      (hrect _ hmem0).2 _ hrm0
    have hd1 : ((h.getD (2 * i + 1) []).getD b []).length = d :=
      (hrect _ hmem1).2 _ hrm1
    rw [hrow, List.length_append, hd0, hd1]; omega
  · intro hs ts
    simp [init_decoder_state, mkRNNDecoderState]

/-- C1 witness: a concrete 2-slice bidirectional final state (L = 1, batch
1, width 1) instantiating the reconciliation theorem. -/
theorem bidir_final_state_reconciliation_w :
    ([[[(1 : ℚ)]], [[2]]] : Tensor3).length = 2 * 1
    ∧ (∀ slice ∈ ([[[(1 : ℚ)]], [[2]]] : Tensor3),
        slice.length = 1 ∧ ∀ row ∈ slice, row.length = 1)
    ∧ (fix_enc_hidden true [[[(1 : ℚ)]], [[2]]]).length = 1 :=
  ⟨by decide, by decide,
    (bidir_final_state_reconciliation [[[(1 : ℚ)]], [[2]]] 1 1 1
      (by decide) (by decide)).1⟩

/-! ### C2: beam reorder with the identity permutation -/

theorem beam_update_tensor_id (bs idx : ℕ) (e : Tensor3)
    (hbs : 0 < bs)
    (hrect : ∀ slice ∈ e, slice.length = tsize1 e)
    (hdvd : bs ∣ tsize1 e) :
    beam_update_tensor bs idx (List.range bs) e = e := by
  unfold beam_update_tensor
  have hstep : ∀ slice ∈ e,
      (List.range (tsize1 e)).map (fun b =>
        if b % (tsize1 e / bs) = idx then
          slice.getD ((List.range bs).getD (b / (tsize1 e / bs)) 0 * (tsize1 e / bs) + idx) []
        else slice.getD b []) = slice := by
    intro slice hm
    have hsl : slice.length = tsize1 e := hrect slice hm
    have hmul : tsize1 e / bs * bs = tsize1 e := Nat.div_mul_cancel hdvd
    have hcong : ∀ b ∈ List.range (tsize1 e),
        (if b % (tsize1 e / bs) = idx then
          slice.getD ((List.range bs).getD (b / (tsize1 e / bs)) 0 * (tsize1 e / bs) + idx) []
        else slice.getD b []) = slice.getD b [] := by
      intro b hbmem
      have hblt : b < tsize1 e := List.mem_range.mp hbmem
      by_cases hc : b % (tsize1 e / bs) = idx
      · rw [if_pos hc]
        have hnb : 0 < tsize1 e / bs := by
          rcases Nat.eq_zero_or_pos (tsize1 e / bs) with h0 | h
          · rw [h0, Nat.zero_mul] at hmul; omega
          · exact h
        have hdivlt : b / (tsize1 e / bs) < bs := by
          apply Nat.div_lt_of_lt_mul
          rw [hmul]
          exact hblt
        have hpos : (List.range bs).getD (b / (tsize1 e / bs)) 0 = b / (tsize1 e / bs) := by
          have hl : b / (tsize1 e / bs) < (List.range bs).length := by simpa using hdivlt
          rw [List.getD_eq_getElem _ _ hl, List.getElem_range]
        rw [hpos]
        have hmod : b / (tsize1 e / bs) * (tsize1 e / bs) + b % (tsize1 e / bs) = b :=
          Nat.div_add_mod' b (tsize1 e / bs)
        have hb2 : b / (tsize1 e / bs) * (tsize1 e / bs) + idx = b := by
          rw [← hc]; omega
        rw [hb2]
      · rw [if_neg hc]
    calc (List.range (tsize1 e)).map (fun b =>
          if b % (tsize1 e / bs) = idx then
            slice.getD ((List.range bs).getD (b / (tsize1 e / bs)) 0 * (tsize1 e / bs) + idx) []
          else slice.getD b [])
        = (List.range (tsize1 e)).map (fun b => slice.getD b []) :=
          List.map_congr_left hcong
      _ = slice := by rw [← hsl]; exact range_map_getD slice []
  calc e.map (fun slice =>
        (List.range (tsize1 e)).map (fun b =>
          if b % (tsize1 e / bs) = idx then
            slice.getD ((List.range bs).getD (b / (tsize1 e / bs)) 0 * (tsize1 e / bs) + idx) []
          else slice.getD b [])) = e.map id := List.map_congr_left hstep
    _ = e := List.map_id e

/-- C2: reordering a decoder state with beam_update using the identity
permutation (positions[i] = i over the beam axis) leaves every tensor the
operation iterates over — every hidden tensor and the input feed —
unchanged, hence the whole state unchanged, whenever the iterated tensors
are rectangular in the batch axis with batch size divisible by beam_size. -/
theorem beam_update_identity_roundtrip (s : RNNDecoderState) (bs idx : ℕ)
    (hbs : 0 < bs)
    (hall : ∀ t ∈ s.all, (∀ slice ∈ t, slice.length = tsize1 t) ∧ bs ∣ tsize1 t) :
    s.beam_update idx (List.range bs) bs = s := by
  have hfix : ∀ t ∈ s.all, beam_update_tensor bs idx (List.range bs) t = t :=
    fun t ht => beam_update_tensor_id bs idx t hbs (hall t ht).1 (hall t ht).2
  cases s with
  | mk hid feed cov =>
    have hh : ∀ t ∈ hid, beam_update_tensor bs idx (List.range bs) t = t := by
      intro t ht
      exact hfix t (by simp [RNNDecoderState.all, ht])
    have hf : beam_update_tensor bs idx (List.range bs) feed = feed := by
      apply hfix
      simp [RNNDecoderState.all]
    unfold RNNDecoderState.beam_update
    simp only [RNNDecoderState.mk.injEq]
    refine ⟨?_, hf, trivial⟩
    calc hid.map (beam_update_tensor bs idx (List.range bs)) = hid.map id :=
          List.map_congr_left hh
      _ = hid := List.map_id hid

/-- C2 witness: a concrete state with one hidden tensor and an input feed,
batch size 2, beam size 2, identity positions [0, 1]. -/
theorem beam_update_identity_roundtrip_w :
    (0 < 2
      ∧ ∀ t ∈ (RNNDecoderState.mk [[[[(1 : ℚ)], [2]]]] [[[3], [4]]] none).all,
          (∀ slice ∈ t, slice.length = tsize1 t) ∧ 2 ∣ tsize1 t)
    ∧ (RNNDecoderState.mk [[[[(1 : ℚ)], [2]]]] [[[3], [4]]] none).beam_update
        0 (List.range 2) 2
      = RNNDecoderState.mk [[[[(1 : ℚ)], [2]]]] [[[3], [4]]] none :=
  ⟨⟨by decide, by decide⟩,
    beam_update_identity_roundtrip _ 2 0 (by decide) (by decide)⟩

/-! ### C3: what the shared state-tensor iteration covers -/

/-- C3 counterexample: a decoder state whose coverage is non-None after an
update_state call (as after a coverage-enabled decode step) has a coverage
tensor that is not among the tensors `_all` yields, so the shared iteration
used by beam_update and detach does not include the coverage accumulator. -/
theorem coverage_not_in_all_cex :
    ((RNNDecoderState.mk [[[[(1 : ℚ)], [2]]]] [[[0], [0]]] none).update_state
        (RnnStateArg.single [[[1], [2]]]) [[[3], [4]]] (some [[[9], [9]]])).coverage
      = some [[[9], [9]]]
    ∧ [[[(9 : ℚ)], [9]]] ∉
      ((RNNDecoderState.mk [[[[(1 : ℚ)], [2]]]] [[[0], [0]]] none).update_state
        (RnnStateArg.single [[[1], [2]]]) [[[3], [4]]] (some [[[9], [9]]])).all := by
  constructor
  · rfl
  · decide

/-- C3 amended: the shared iteration `_all` yields exactly the hidden
tensors followed by the input feed — the coverage accumulator is excluded —
so beam_update reorders the hidden tensors and the input feed but leaves
the coverage accumulator untouched. -/
theorem beam_iteration_covers_hidden_and_input_feed
    (s : RNNDecoderState) (idx : ℕ) (positions : List ℕ) (bs : ℕ) :
    s.all = s.hidden ++ [s.input_feed]
    ∧ (s.beam_update idx positions bs).coverage = s.coverage
    ∧ (s.beam_update idx positions bs).hidden
        = s.hidden.map (beam_update_tensor bs idx positions)
    ∧ (s.beam_update idx positions bs).input_feed
        = beam_update_tensor bs idx positions s.input_feed :=
  ⟨rfl, rfl, rfl, rfl⟩

/-! ### C4: coverage accumulation in the input-feeding decoder -/

theorem runningSums_length (l : List Mat) : ∀ acc, (runningSums l acc).length = l.length := by
  induction l with
  | nil => intro acc; simp [runningSums]
  | cons a rest ih => intro acc; simp [runningSums, ih]

theorem runningSums_getD_succ (l : List Mat) :
    ∀ (acc : Option Mat) (t : ℕ), t + 1 < l.length →
      (runningSums l acc).getD (t + 1) []
        = matAdd ((runningSums l acc).getD t []) (l.getD (t + 1) []) := by
  induction l with
  | nil => intro acc t h; simp at h
  | cons a rest ih =>
    intro acc t h
    cases t with
    | zero =>
      cases rest with
      | nil => simp at h
      | cons b rest2 =>
        cases acc with
        | none => simp [runningSums]
        | some c => simp [runningSums]
    | succ t2 =>
      have h2 : t2 + 1 < rest.length := by simp at h; omega
      have := ih (some (match acc with
        | some c => matAdd c a
        | none => a)) t2 h2
      simpa [runningSums] using this

theorem covlist_eq_runningSums {H : Type}
    (rnnF : Mat → H → Mat × H) (attnF : Mat → Mat × Mat)
    (cg : Option (Mat → Mat → Mat → Mat)) (dropoutF : Mat → Mat)
    (copyAttnF : Mat → Mat × Mat) (copy_flag reuse_flag : Bool) :
    ∀ (embs : List Mat) (hidden : H) (input_feed : Mat) (coverage : Option Mat),
      (run_forward_steps rnnF attnF cg dropoutF copyAttnF true copy_flag reuse_flag
          embs hidden input_feed coverage).covlist
        = runningSums
            (run_forward_steps rnnF attnF cg dropoutF copyAttnF true copy_flag reuse_flag
              embs hidden input_feed coverage).std coverage := by
  intro embs
  induction embs with
  | nil => intro hidden input_feed coverage; simp [run_forward_steps, runningSums]
  | cons e rest ih =>
    intro hidden input_feed coverage
    cases coverage with
    | none => simp [run_forward_steps, runningSums, ih]
    | some c => simp [run_forward_steps, runningSums, ih]

/-- C4: with coverage enabled and an incoming state whose coverage is None,
the input-feeding forward pass succeeds (given the input-feed/target batch
precondition) and its recorded coverage list is exactly the running
elementwise sums of the recorded standard attention distributions: the
first entry is the first distribution itself and each later entry is the
previous coverage plus that step's new distribution. -/
theorem input_feed_coverage_accumulation
    (rnnF : Mat → List Tensor3 → Mat × List Tensor3) (attnF : Mat → Mat × Mat)
    (cg : Option (Mat → Mat → Mat → Mat)) (dropoutF : Mat → Mat)
    (copyAttnF : Mat → Mat × Mat) (copy_flag reuse_flag : Bool)
    (embF : Tensor3 → Tensor3) (tgt : Tensor3) (s : RNNDecoderState)
    (hcov : s.coverage = none)
    (hbatch : tsize1 tgt = (s.input_feed.headD []).length) :
    ∃ r, input_feed_run_forward_pass rnnF attnF cg dropoutF copyAttnF
        true copy_flag reuse_flag embF tgt s = Except.ok r
      ∧ r.covlist = runningSums r.std none
      ∧ r.covlist.length = r.std.length
      ∧ (r.std ≠ [] → r.covlist.getD 0 [] = r.std.getD 0 [])
      ∧ (∀ t, t + 1 < r.std.length →
          r.covlist.getD (t + 1) [] = matAdd (r.covlist.getD t []) (r.std.getD (t + 1) [])) := by
  refine ⟨run_forward_steps rnnF attnF cg dropoutF copyAttnF true copy_flag reuse_flag
    (embF tgt) s.hidden (s.input_feed.headD []) none, ?_, ?_, ?_, ?_, ?_⟩
  · unfold input_feed_run_forward_pass
    rw [hcov]
    simp only [aeq, hbatch, if_pos rfl, Option.map_none']
    rfl
  · rw [covlist_eq_runningSums]
  · rw [covlist_eq_runningSums, runningSums_length]
  · intro hne
    rw [covlist_eq_runningSums]
    rcases hstd : (run_forward_steps rnnF attnF cg dropoutF copyAttnF true copy_flag
        reuse_flag (embF tgt) s.hidden (s.input_feed.headD []) none).std with _ | ⟨a, l⟩
    · exact absurd hstd hne
    · simp [runningSums]
  · intro t ht
    rw [covlist_eq_runningSums]
    exact runningSums_getD_succ _ none t ht

/-- C4 witness: a two-step concrete run with coverage enabled from a
freshly constructed state (coverage None), instantiating the accumulation
theorem. -/
theorem input_feed_coverage_accumulation_w :
    (mkRNNDecoderState 1 (RnnStateArg.single [[[(0 : ℚ)]]])).coverage = none
    ∧ tsize1 [[[(1 : ℚ)]], [[2]]]
        = ((mkRNNDecoderState 1 (RnnStateArg.single [[[(0 : ℚ)]]])).input_feed.headD []).length
    ∧ ∃ r, input_feed_run_forward_pass (fun x h => (x, h)) (fun x => (x, x)) none
          (fun x => x) (fun x => (x, x)) true false false (fun t => t)
          [[[(1 : ℚ)]], [[2]]] (mkRNNDecoderState 1 (RnnStateArg.single [[[(0 : ℚ)]]]))
        = Except.ok r
      ∧ r.covlist = runningSums r.std none
      ∧ r.covlist.length = r.std.length
      ∧ (r.std ≠ [] → r.covlist.getD 0 [] = r.std.getD 0 [])
      ∧ (∀ t, t + 1 < r.std.length →
          r.covlist.getD (t + 1) [] = matAdd (r.covlist.getD t []) (r.std.getD (t + 1) [])) :=
  ⟨rfl, by decide,
    input_feed_coverage_accumulation (fun x h => (x, h)) (fun x => (x, x)) none
      (fun x => x) (fun x => (x, x)) false false (fun t => t)
      [[[(1 : ℚ)]], [[2]]] (mkRNNDecoderState 1 (RnnStateArg.single [[[(0 : ℚ)]]]))
      rfl (by decide)⟩

/-! ### C5: the bridge projection -/

/-- C5 counterexample: at the concrete bridge input of a 2-layer
unidirectional encoder (num_layers = 2, per-direction hidden size 1, so
total_hidden_dim = 2 and the incoming final state has shape (2, 1, 1)) the
claim predicts a projected state of shape (layers, batch, hidden) =
(2, 1, 1).  The code instead raises at the final view: under the
module-wide true-division import, size[0] / self.num_layers = 2 / 2 is the
Python float 1.0, and Tensor.view rejects float size entries, so no
projected state is produced at all. -/
theorem bridge_shape_cex :
    bottle_hidden 2 2 [[(1 : ℚ), 1]] [0] [[[1]], [[2]]]
      = Except.error "TypeError: view size must be int, got float" := rfl

/-- C5 amended: for every RNNEncoder built with use_bridge, forward never
completes the bridge projection.  The flattening view(-1, total_hidden_dim)
and the per-channel linear-plus-ReLU are reached, but the final
view([size[0] / num_layers, size[1], size[2]]) receives a float first entry
(true division is in force module-wide) and raises a TypeError on every
input, so every use_bridge forward fails at the reshape: for a tuple-shaped
(LSTM) hidden+cell pair the first channel projection raises, and the single
projection raises otherwise; with use_bridge unset the encoder final state
passes through unchanged. -/
theorem bridge_projection_per_channel
    (num_layers total_hidden_dim : ℕ) (W W2 : Mat) (bias b2 : Vec)
    (states t : Tensor3) (ts : List Tensor3) (bridges : List (Mat × Vec))
    (ef : RnnStateArg) :
    bottle_hidden num_layers total_hidden_dim W bias states
      = Except.error "TypeError: view size must be int, got float"
    ∧ bridge_forward num_layers total_hidden_dim ((W, bias) :: (W2, b2) :: bridges)
        (RnnStateArg.tuple (t :: ts))
      = Except.error "TypeError: view size must be int, got float"
    ∧ bridge_forward num_layers total_hidden_dim [(W, bias)] (RnnStateArg.single states)
      = Except.error "TypeError: view size must be int, got float"
    ∧ rnn_encoder_apply_bridge true num_layers total_hidden_dim
        ((W, bias) :: (W2, b2) :: bridges) (RnnStateArg.tuple (t :: ts))
      = Except.error "TypeError: view size must be int, got float"
    ∧ rnn_encoder_apply_bridge false num_layers total_hidden_dim bridges ef
      = Except.ok ef :=
  ⟨rfl, rfl, rfl, rfl, rfl⟩

/-! ### C6: capability rejection in the batched-standard decoder -/

/-- C6: every forward pass of the batched-standard decoder with copy
attention configured fails on the first assertion (regardless of the
coverage flag), every pass with coverage attention configured fails on the
second assertion, both before any output is produced; and on every
successful pass the attention dictionary carries no copy and no coverage
entry. -/
theorem std_decoder_capability_rejection
    (cfg_coverage is_gru : Bool)
    (embF : Tensor3 → Tensor3)
    (rnnF : Tensor3 → List Tensor3 → Tensor3 × List Tensor3)
    (attnF : Tensor3 → Tensor3 → Tensor3 × Tensor3)
    (context_gate : Option (Tensor3 → Tensor3 → Tensor3 → Tensor3))
    (dropoutF : Tensor3 → Tensor3)
    (tgt memory_bank : Tensor3) (state : RNNDecoderState) :
    std_run_forward_pass true cfg_coverage is_gru embF rnnF attnF context_gate
        dropoutF tgt memory_bank state
      = Except.error "assert not copy failed: no support yet"
    ∧ std_run_forward_pass false true is_gru embF rnnF attnF context_gate
        dropoutF tgt memory_bank state
      = Except.error "assert not coverage failed: no support yet"
    ∧ (std_run_forward_pass false false is_gru embF rnnF attnF context_gate
        dropoutF tgt memory_bank state).map (fun r => (r.2.2.copy, r.2.2.coverage))
      = (std_run_forward_pass false false is_gru embF rnnF attnF context_gate
        dropoutF tgt memory_bank state).map
          (fun _ => ((none : Option Tensor3), (none : Option Tensor3))) := by
  refine ⟨rfl, rfl, ?_⟩
  unfold std_run_forward_pass
  simp only [Bool.false_eq_true, if_false]
  unfold aeq
  by_cases h1 : tgt.length
      = (rnnF (embF tgt) (if is_gru then [state.hidden.headD []] else state.hidden)).1.length
  · rw [if_pos h1]
    by_cases h2 : tsize1 tgt
        = tsize1 (rnnF (embF tgt) (if is_gru then [state.hidden.headD []] else state.hidden)).1
    · rw [if_pos h2]
      rfl
    · rw [if_neg h2]
      rfl
  · rw [if_neg h1]
    rfl

/-! ### C7: batch-size preconditions fail fast -/

/-- C7: the encoder lengths/batch check and the decoder target/memory batch
check succeed exactly when the batch sizes agree and otherwise surface the
equality-assertion failure before any later work runs; a missing lengths
vector skips the encoder check. -/
theorem batch_size_precondition_checks
    {A : Type} (src : Tensor3) (ls : List ℤ) (tgt memory_bank : Tensor3)
    (rest1 rest2 : Unit → A) :
    (encoder_forward_checked src (some ls) rest1 = Except.ok (rest1 ())
      ↔ tsize1 src = ls.length)
    ∧ (encoder_forward_checked src (some ls) rest1 = Except.error "aeq assertion failed"
      ↔ tsize1 src ≠ ls.length)
    ∧ encoder_forward_checked src none rest1 = Except.ok (rest1 ())
    ∧ (decoder_forward_checked tgt memory_bank rest2 = Except.ok (rest2 ())
      ↔ tsize1 tgt = tsize1 memory_bank)
    ∧ (decoder_forward_checked tgt memory_bank rest2 = Except.error "aeq assertion failed"
      ↔ tsize1 tgt ≠ tsize1 memory_bank) := by
  have hredE : encoder_forward_checked src (some ls) rest1
      = bind (aeq (tsize1 src) ls.length) (fun _ => Except.ok (rest1 ())) := rfl
  have hredD : decoder_forward_checked tgt memory_bank rest2
      = bind (aeq (tsize1 tgt) (tsize1 memory_bank)) (fun _ => Except.ok (rest2 ())) := rfl
  rw [hredE, hredD]
  unfold aeq
  refine ⟨?_, ?_, rfl, ?_, ?_⟩
  · by_cases h : tsize1 src = ls.length
    · rw [if_pos h]
      exact iff_of_true rfl h
    · rw [if_neg h]
      exact iff_of_false (fun hc => Except.noConfusion hc) h
  · by_cases h : tsize1 src = ls.length
    · rw [if_pos h]
      exact iff_of_false (fun hc => Except.noConfusion hc) (fun hne => hne h)
    · rw [if_neg h]
      exact iff_of_true rfl h
  · by_cases h : tsize1 tgt = tsize1 memory_bank
    · rw [if_pos h]
      exact iff_of_true rfl h
    · rw [if_neg h]
      exact iff_of_false (fun hc => Except.noConfusion hc) h
  · by_cases h : tsize1 tgt = tsize1 memory_bank
    · rw [if_pos h]
      exact iff_of_false (fun hc => Except.noConfusion hc) (fun hne => hne h)
    · rw [if_neg h]
      exact iff_of_true rfl h

/-! ### C9: multigpu degraded mode -/

/-- C9: an NMTModel or TwoEncoderModel forward with multigpu set returns
the very same decoder outputs as the multigpu-off run but nulls the
attention bundle and the final decoder state, while with multigpu off both
are returned as computed. -/
theorem multigpu_degraded_mode
    {Src TgtT L EF MB Out Attns DS : Type}
    (encoder : Src → L → EF × MB) (initState : Src → MB → EF → DS)
    (decoder : List TgtT → MB → DS → L → Out × DS × Attns)
    (src : Src) (tgt : List TgtT) (lengths : L) (dec_state : Option DS)
    {EF2 DS2 Out2 Attns2 : Type}
    (encoder2 : Tensor3 → List ℤ → EF2 × Tensor3)
    (initState2 : Tensor3 → Tensor3 → EF2 → DS2)
    (decoder2 : Tensor3 → Tensor3 → DS2 → List ℤ → Out2 × DS2 × Attns2)
    (embB : Tensor3 → List Mat) (e : ℚ → ℚ) (all_docs : Option Mat)
    (src2 conversation tgt2 : Tensor3) (lengths2 : List ℤ × List ℤ)
    (ds2 : Option DS2) :
    (∃ o a s, nmt_forward encoder initState decoder false src tgt lengths dec_state
          = (o, some a, some s)
      ∧ nmt_forward encoder initState decoder true src tgt lengths dec_state
          = (o, none, none))
    ∧ (∃ o a s, two_encoder_forward encoder2 initState2 decoder2 embB e all_docs
          false src2 conversation tgt2 lengths2 ds2 = (o, some a, some s)
      ∧ two_encoder_forward encoder2 initState2 decoder2 embB e all_docs
          true src2 conversation tgt2 lengths2 ds2 = (o, none, none)) :=
  ⟨⟨_, _, _, rfl, rfl⟩, ⟨_, _, _, rfl, rfl⟩⟩

/-! ### C10: reuse of the standard attention for the copy distribution -/

theorem run_copy_eq_std {H : Type}
    (rnnF : Mat → H → Mat × H) (attnF : Mat → Mat × Mat)
    (cg : Option (Mat → Mat → Mat → Mat)) (dropoutF : Mat → Mat)
    (copyAttnF : Mat → Mat × Mat) (coverage_flag : Bool) :
    ∀ (embs : List Mat) (hidden : H) (input_feed : Mat) (coverage : Option Mat),
      (run_forward_steps rnnF attnF cg dropoutF copyAttnF coverage_flag true true
          embs hidden input_feed coverage).copy
        = (run_forward_steps rnnF attnF cg dropoutF copyAttnF coverage_flag true true
            embs hidden input_feed coverage).std := by
  intro embs
  induction embs with
  | nil => intro hidden input_feed coverage; rfl
  | cons e rest ih =>
    intro hidden input_feed coverage
    simp [run_forward_steps, ih]

theorem run_ignores_copyAttn {H : Type}
    (rnnF : Mat → H → Mat × H) (attnF : Mat → Mat × Mat)
    (cg : Option (Mat → Mat → Mat → Mat)) (dropoutF : Mat → Mat)
    (f g : Mat → Mat × Mat) (coverage_flag : Bool) :
    ∀ (embs : List Mat) (hidden : H) (input_feed : Mat) (coverage : Option Mat),
      run_forward_steps rnnF attnF cg dropoutF f coverage_flag true true
          embs hidden input_feed coverage
        = run_forward_steps rnnF attnF cg dropoutF g coverage_flag true true
            embs hidden input_feed coverage := by
  intro embs
  induction embs with
  | nil => intro hidden input_feed coverage; rfl
  | cons e rest ih =>
    intro hidden input_feed coverage
    simp [run_forward_steps, ih]

/-- C10: with copy attention enabled and reuse of the standard attention
enabled, the input-feeding forward pass records a copy list equal to its
std list step for step, the whole result is independent of the separate
copy-attention layer (no second attention pass is consulted), and the same
holds through the _run_forward_pass wrapper. -/
theorem reuse_copy_attn_aliases_std {H : Type}
    (rnnF : Mat → H → Mat × H) (attnF : Mat → Mat × Mat)
    (cg : Option (Mat → Mat → Mat → Mat)) (dropoutF : Mat → Mat)
    (f g : Mat → Mat × Mat) (coverage_flag : Bool)
    (embs : List Mat) (hidden : H) (input_feed : Mat) (coverage : Option Mat)
    (rnnF2 : Mat → List Tensor3 → Mat × List Tensor3) (attnF2 : Mat → Mat × Mat)
    (cg2 : Option (Mat → Mat → Mat → Mat)) (dropoutF2 : Mat → Mat)
    (covf2 : Bool) (embF : Tensor3 → Tensor3) (tgt : Tensor3) (state : RNNDecoderState) :
    (run_forward_steps rnnF attnF cg dropoutF f coverage_flag true true
        embs hidden input_feed coverage).copy
      = (run_forward_steps rnnF attnF cg dropoutF f coverage_flag true true
          embs hidden input_feed coverage).std
    ∧ run_forward_steps rnnF attnF cg dropoutF f coverage_flag true true
        embs hidden input_feed coverage
      = run_forward_steps rnnF attnF cg dropoutF g coverage_flag true true
          embs hidden input_feed coverage
    ∧ (input_feed_run_forward_pass rnnF2 attnF2 cg2 dropoutF2 f covf2 true true
        embF tgt state).map IFOut.copy
      = (input_feed_run_forward_pass rnnF2 attnF2 cg2 dropoutF2 f covf2 true true
          embF tgt state).map IFOut.std
    ∧ input_feed_run_forward_pass rnnF2 attnF2 cg2 dropoutF2 f covf2 true true
        embF tgt state
      = input_feed_run_forward_pass rnnF2 attnF2 cg2 dropoutF2 g covf2 true true
          embF tgt state := by
  have hredf : input_feed_run_forward_pass rnnF2 attnF2 cg2 dropoutF2 f covf2 true true
      embF tgt state
    = bind (aeq (tsize1 tgt) (state.input_feed.headD []).length)
        (fun _ => Except.ok (run_forward_steps rnnF2 attnF2 cg2 dropoutF2 f covf2 true true
          (embF tgt) state.hidden (state.input_feed.headD [])
          (state.coverage.map (fun c => c.headD [])))) := rfl
  have hredg : input_feed_run_forward_pass rnnF2 attnF2 cg2 dropoutF2 g covf2 true true
      embF tgt state
    = bind (aeq (tsize1 tgt) (state.input_feed.headD []).length)
        (fun _ => Except.ok (run_forward_steps rnnF2 attnF2 cg2 dropoutF2 g covf2 true true
          (embF tgt) state.hidden (state.input_feed.headD [])
          (state.coverage.map (fun c => c.headD [])))) := rfl
  refine ⟨run_copy_eq_std rnnF attnF cg dropoutF f coverage_flag embs hidden input_feed coverage,
    run_ignores_copyAttn rnnF attnF cg dropoutF f g coverage_flag embs hidden input_feed coverage,
    ?_, ?_⟩
  · rw [hredf]
    unfold aeq
    by_cases h : tsize1 tgt = (state.input_feed.headD []).length
    · rw [if_pos h]
      show Except.ok _ = Except.ok _
      rw [run_copy_eq_std]
    · rw [if_neg h]
      rfl
  · rw [hredf, hredg, run_ignores_copyAttn rnnF2 attnF2 cg2 dropoutF2 f g covf2]

/-! ### C8: default path of the external memory lookup -/

theorem sum_map_div (l : Vec) (s : ℚ) :
    (l.map (fun x => x / s)).sum = l.sum / s := by
  induction l with
  | nil => simp
  | cons a rest ih => simp [ih, add_div]

theorem foldl_matAdd_length :
    ∀ (rest : List Mat) (m : Mat), (∀ x ∈ rest, x.length = m.length) →
      (rest.foldl matAdd m).length = m.length := by
  intro rest
  induction rest with
  | nil => intro m h; rfl
  | cons x rest2 ih =>
    intro m h
    have hx : x.length = m.length := h x (List.mem_cons_self x rest2)
    have hadd : (matAdd m x).length = m.length := by
      simp [matAdd, List.length_zipWith]
      omega
    show (rest2.foldl matAdd (matAdd m x)).length = m.length
    rw [ih (matAdd m x) (fun y hy => by rw [hadd]; exact h y (List.mem_cons_of_mem _ hy)), hadd]

theorem matMean_length (emb : List Mat) (B : ℕ) (hne : emb ≠ [])
    (hrect : ∀ m ∈ emb, m.length = B) : (matMean emb).length = B := by
  rcases emb with _ | ⟨m, rest⟩
  · exact absurd rfl hne
  · have hm : m.length = B := hrect m (List.mem_cons_self _ _)
    have hr : ∀ x ∈ rest, x.length = m.length := by
      intro x hx
      rw [hm]
      exact hrect x (List.mem_cons_of_mem _ hx)
    simp only [matMean, matScale, List.length_map]
    rw [foldl_matAdd_length rest m hr, hm]

theorem matMul_length (a b : Mat) : (matMul a b).length = a.length := by
  simp [matMul]

theorem matMul_row_length (a b : Mat) :
    ∀ row ∈ matMul a b, row.length = ncols b := by
  intro row hrow
  rcases List.mem_map.mp hrow with ⟨r0, hr0, hq⟩
  rw [← hq]
  simp

theorem ncols_matTranspose (m : Mat) (h : 0 < ncols m) :
    ncols (matTranspose m) = m.length := by
  rcases hn : ncols m with _ | k
  · omega
  · unfold matTranspose
    rw [hn, List.range_succ_eq_map]
    unfold ncols
    simp

/-- C8: with usetopk disabled (the hardcoded default), word_memory.forward
equals softmax(u @ word_embedding_a) matrix-multiplied with
word_embedding_c, where u is the mean over time of the embedded query
sequence; for a corpus of N documents and batch size B the softmax weight
matrix is B x N with every row summing to exactly 1, and the output is
B x d where d is the document encoding width. -/
theorem word_memory_default_path
    (docs : Mat) (emb : List Mat) (e : ℚ → ℚ) (B d : ℕ)
    (he : ∀ x, 0 < e x)
    (hdocs : docs ≠ [])
    (hd : 0 < d)
    (hdocs_rect : ∀ r ∈ docs, r.length = d)
    (hemb : emb ≠ [])
    (hemb_rect : ∀ m ∈ emb, m.length = B) :
    (mkWordMemory docs).forward e emb
      = matMul (softmaxRows e (matMul (matMean emb) (matTranspose docs))) docs
    ∧ (softmaxRows e (matMul (matMean emb) (matTranspose docs))).length = B
    ∧ (∀ row ∈ softmaxRows e (matMul (matMean emb) (matTranspose docs)),
        row.length = docs.length ∧ row.sum = 1)
    ∧ ((mkWordMemory docs).forward e emb).length = B
    ∧ (∀ row ∈ (mkWordMemory docs).forward e emb, row.length = d) := by
  have hN : 0 < docs.length := List.length_pos.mpr hdocs
  have hncols : ncols docs = d := by
    rcases docs with _ | ⟨r0, drest⟩
    · exact absurd rfl hdocs
    · exact hdocs_rect r0 (List.mem_cons_self _ _)
  have hAT : ncols (matTranspose docs) = docs.length :=
    ncols_matTranspose docs (by omega)
  have hu : (matMean emb).length = B := matMean_length emb B hemb hemb_rect
  have hplen : (softmaxRows e (matMul (matMean emb) (matTranspose docs))).length = B := by
    rw [softmaxRows, List.length_map, matMul_length, hu]
  have hrows : ∀ row ∈ softmaxRows e (matMul (matMean emb) (matTranspose docs)),
      row.length = docs.length ∧ row.sum = 1 := by
    intro row hrow
    rcases List.mem_map.mp hrow with ⟨row0, hrow0, hq⟩
    have hlen0 : row0.length = docs.length := by
      rw [matMul_row_length _ _ row0 hrow0, hAT]
    have hwne : row0.map e ≠ [] := by
      intro hcon
      have : row0.length = 0 := by
        have := congrArg List.length hcon
        simpa using this
      omega
    have hwpos : ∀ y ∈ row0.map e, 0 < y := by
      intro y hy
      rcases List.mem_map.mp hy with ⟨x, hx, hq2⟩
      rw [← hq2]
      exact he x
    have hspos : 0 < (row0.map e).sum := List.sum_pos _ hwpos hwne
    constructor
    · rw [← hq]
      simpa using hlen0
    · rw [← hq]
      simp only []
      rw [sum_map_div]
      exact div_self (ne_of_gt hspos)
  refine ⟨rfl, hplen, hrows, ?_, ?_⟩
  · show (matMul (softmaxRows e (matMul (matMean emb) (matTranspose docs))) docs).length = B
    rw [matMul_length, hplen]
  · intro row hrow
    have hrl := matMul_row_length _ _ row hrow
    have hc : (mkWordMemory docs).word_embedding_c = docs := rfl
    rw [hc] at hrl
    rw [hrl, hncols]

/-- C8 witness: a two-document corpus of width 1, one embedded time step of
batch size 1, and the constant positive weight function, instantiating the
default-path theorem. -/
theorem word_memory_default_path_w :
    (mkWordMemory [[(1 : ℚ)], [2]]).forward (fun _ => 1) [[[2]]]
      = matMul (softmaxRows (fun _ => 1)
          (matMul (matMean [[[2]]]) (matTranspose [[(1 : ℚ)], [2]]))) [[(1 : ℚ)], [2]]
    ∧ (softmaxRows (fun _ => 1)
        (matMul (matMean [[[2]]]) (matTranspose [[(1 : ℚ)], [2]]))).length = 1
    ∧ ((mkWordMemory [[(1 : ℚ)], [2]]).forward (fun _ => 1) [[[2]]]).length = 1 :=
  ⟨(word_memory_default_path [[(1 : ℚ)], [2]] [[[2]]] (fun _ => 1) 1 1
      (fun _ => one_pos) (by decide) (by decide) (by decide) (by decide) (by decide)).1,
    (word_memory_default_path [[(1 : ℚ)], [2]] [[[2]]] (fun _ => 1) 1 1
      (fun _ => one_pos) (by decide) (by decide) (by decide) (by decide) (by decide)).2.1,
    (word_memory_default_path [[(1 : ℚ)], [2]] [[[2]]] (fun _ => 1) 1 1
      (fun _ => one_pos) (by decide) (by decide) (by decide) (by decide) (by decide)).2.2.2.1⟩
